import Mathlib

/-!
Shallow embedding of the `EdgeLogger` class from `src/index.ts` of
`edge-logger-for-axiom`, together with theorems settling the spec claims.

Modelling conventions:
* JavaScript runtime values relevant to the logger are modelled by `JSVal`
  (strings, numbers, booleans, `null`, `undefined`); truthiness follows JS.
* A JS object is an association list `JSObj` with JS object-literal update
  semantics (`objSet` overwrites in place, `objGet` reads the first match,
  spread `objSpread` applies the right object's entries last-write-wins).
* The external collaborators are oracle parameters: the active trace id
  (`traceId`), the current time (`now`), `crypto.randomUUID()`
  (`freshUUID`), and the outcome of `fetch` (`FetchResult`).
* Side effects (console writes, timer scheduling/cancellation, `ctx.waitUntil`
  registrations) are recorded as an explicit `Effect` list; the engine's
  mutable fields are the `LogState` record, threaded explicitly.
* The two awaits inside `flush` are modelled sequentially: the records pushed
  while the `fetch` is pending are the oracle list `during`, and the
  serialization barrier (`await this.flushPromise`) means the state passed to
  a non-skipped `flush` is the post-barrier state.
-/

namespace EdgeLogger

/-- Runtime values appearing in caller-supplied structured fields and in log
records (the scalar fragment of the JS value universe used by the logger). -/
inductive JSVal where
  | str (s : String)
  | num (n : Int)
  | bool (b : Bool)
  | null
  | undef
  deriving Repr, DecidableEq

/-- JavaScript truthiness on `JSVal` (empty string, `0`, `false`, `null`,
`undefined` are falsy). -/
def JSVal.truthy : JSVal → Bool
  | .str s => s ≠ ""
  | .num n => n ≠ 0
  | .bool b => b
  | .null => false
  | .undef => false

/-- JavaScript `a || b` on the modelled values. -/
def jsOr (a b : JSVal) : JSVal :=
  if a.truthy then a else b

/-- JavaScript string truthiness (`""` is falsy). -/
def strTruthy (s : String) : Bool :=
  s ≠ ""

/-- A JS object as an ordered association list of own properties. -/
abbrev JSObj := List (String × JSVal)

/-- Property read: value of the first entry with the given key, `undefined`
when absent (JS member access on a plain object). -/
def objGet : JSObj → String → JSVal
  | [], _ => .undef
  | (k, v) :: rest, key => if k = key then v else objGet rest key

/-- Whether the object has an own property with the given key. -/
def objHas : JSObj → String → Bool
  | [], _ => false
  | (k, _) :: rest, key => k = key || objHas rest key

/-- Property write with JS object semantics: overwrite the existing entry in
place, or append a fresh entry at the end. -/
def objSet : JSObj → String → JSVal → JSObj
  | [], key, v => [(key, v)]
  | (k, w) :: rest, key, v =>
      if k = key then (k, v) :: rest else (k, w) :: objSet rest key v

/-- Spread `{ ...base, ...ext }`: entries of `ext` are written over `base`
in order, so a key present in `ext` ends with the value `ext` gives it. -/
def objSpread (base ext : JSObj) : JSObj :=
  ext.foldl (fun acc p => objSet acc p.1 p.2) base

/-- Rendering of a scalar value inside `JSON.stringify` output.  Strings are
quoted (character escaping inside the string is not modelled; the claims do
not depend on it). -/
def jsonOfVal : JSVal → String
  | .str s => "\"" ++ s ++ "\""
  | .num n => toString n
  | .bool b => if b then "true" else "false"
  | .null => "null"
  | .undef => "undefined"

/-- Model of `JSON.stringify` on a flat object: properties with value
`undefined` are skipped, the rest are rendered in insertion order. -/
def jsonOfObj (o : JSObj) : String :=
  let fields := o.filter (fun p => p.2 ≠ JSVal.undef)
  "\x7b" ++ String.intercalate "," (fields.map (fun p => "\"" ++ p.1 ++ "\":" ++ jsonOfVal p.2)) ++ "\x7d"

/-- Model of `JSON.stringify(o, null, 2)` on a flat object (pretty-printed,
used only by the local-dev console path). -/
def jsonOfObjPretty (o : JSObj) : String :=
  let fields := o.filter (fun p => p.2 ≠ JSVal.undef)
  "\x7b\n" ++ String.intercalate ",\n" (fields.map (fun p => "  \"" ++ p.1 ++ "\": " ++ jsonOfVal p.2)) ++ "\n\x7d"

/-- Model of `JSON.stringify` on the buffered array of log records. -/
def jsonOfLogs (logs : List JSObj) : String :=
  "[" ++ String.intercalate "," (logs.map jsonOfObj) ++ "]"

/-- The `LogLevel` union type of the source. -/
inductive LogLevel where
  | info
  | warning
  | error
  | debug
  deriving Repr, DecidableEq

/-- The string a `LogLevel` denotes. -/
def LogLevel.toStr : LogLevel → String
  | .info => "info"
  | .warning => "warning"
  | .error => "error"
  | .debug => "debug"

/-- The ANSI color table of the local-dev branch of `_log`. -/
def localDevColor : LogLevel → String
  | .info => "\x1b[32m"
  | .warning => "\x1b[33m"
  | .error => "\x1b[31m"
  | .debug => "\x1b[35m"

/-- The `requestId` construction option, `string | null` and optional, so the
possible values are `undefined`, `null`, or a string. -/
inductive ReqIdArg where
  | undef
  | jsNull
  | str (s : String)
  deriving Repr, DecidableEq

/-- JS truthiness of the `requestId` option (`undefined`, `null` and `""` are
falsy). -/
def ReqIdArg.truthy : ReqIdArg → Bool
  | .str s => s ≠ ""
  | _ => false

/-- The string value carried by a `ReqIdArg` (only read on the truthy branch,
where the value is necessarily a string). -/
def ReqIdArg.strVal : ReqIdArg → String
  | .str s => s
  | _ => ""

/-- The `LoggerArgs` constructor options.  `ctx` is modelled by whether a
truthy execution context was supplied. -/
structure LoggerArgs where
  hasCtx : Bool
  apiKey : String
  dataset : Option String
  service : Option String
  apiURL : Option String
  flushAfterMs : Option Nat
  flushAfterLogs : Option Nat
  requestId : ReqIdArg
  isLocalDev : Option Bool
  deriving Repr, DecidableEq

/-- The immutable configuration fields an `EdgeLogger` instance holds after
construction. -/
structure Config where
  hasCtx : Bool
  apiKey : String
  dataset : String
  service : Option String
  apiURL : String
  flushAfterMs : Nat
  flushAfterLogs : Nat
  requestId : String
  isLocalDev : Bool
  deriving Repr, DecidableEq

/-- The `EdgeLogger` constructor: applies the documented defaults and keeps a
supplied `requestId` only when it is truthy, otherwise uses the fresh UUID
drawn from `crypto.randomUUID()` (passed in as the oracle `freshUUID`). -/
def mkEdgeLogger (args : LoggerArgs) (freshUUID : String) : Config :=
  { hasCtx := args.hasCtx
    apiKey := args.apiKey
    dataset := args.dataset.getD "edge-logger"
    service := args.service
    apiURL := args.apiURL.getD "https://api.axiom.co/v1"
    flushAfterMs := args.flushAfterMs.getD 10000
    flushAfterLogs := args.flushAfterLogs.getD 100
    requestId := if args.requestId.truthy then args.requestId.strVal else freshUUID
    isLocalDev := args.isLocalDev.getD false }

/-- The mutable fields of an `EdgeLogger` instance: the buffered records, and
the two coordination handles (whether a timer is pending and whether a flush
promise is in flight). -/
structure LogState where
  logs : List JSObj
  flushTimeout : Bool
  flushPromise : Bool
  deriving Repr, DecidableEq

/-- Observable side effects of the synchronous part of a record call. -/
inductive Effect where
  | consoleLine (s : String)
  | cancelTimer
  | setTimer (ms : Nat)
  | registerFlush (skipIfInProgress : Bool)
  deriving Repr, DecidableEq

/-- The `scheduleFlush(timeout, reset)` method: with `reset`, an existing
timer is cleared first; then a timer is started only when no timer is pending
and no flush is in flight.  (The timer callback itself — firing, registering
`flush({skipIfInProgress: true})` with `ctx.waitUntil` and clearing the
handle — happens later and is outside this synchronous step.) -/
def scheduleFlush (st : LogState) (timeout : Nat) (reset : Bool) : LogState × List Effect :=
  let cleared :=
    if reset && st.flushTimeout then
      ({ st with flushTimeout := false }, [Effect.cancelTimer])
    else (st, [])
  if !cleared.1.flushTimeout && !cleared.1.flushPromise then
    ({ cleared.1 with flushTimeout := true }, cleared.2 ++ [Effect.setTimer timeout])
  else cleared

/-- The log-record object built by `_log`: base properties first, then the
caller-supplied fields spread last.  The `level` base property is
`(data?.level as string) || level` exactly as in the source. -/
def buildLog (message : String) (level : LogLevel) (data : Option JSObj)
    (service : Option String) (requestId : String) (traceId : Option String)
    (now : String) : JSObj :=
  let dataLevel : JSVal :=
    match data with
    | some d => objGet d "level"
    | none => .undef
  objSpread
    [("message", .str message),
     ("level", jsOr dataLevel (.str level.toStr)),
     ("traceId", match traceId with | some t => .str t | none => .undef),
     ("_time", .str now),
     ("service", match service with | some s => .str s | none => .undef),
     ("requestId", .str requestId)]
    (match data with | some d => d | none => [])

/-- The private `_log(message, level, data)` method.  In local-dev mode it
prints colored lines and returns without touching any state.  Otherwise it
builds the record, writes it to the console as well when no truthy API key or
execution context is configured, pushes it onto the buffer, and then either
(at or above the count threshold) resets a pending timer via
`scheduleFlush(_, true)` and registers `flush({skipIfInProgress: true})` with
`ctx.waitUntil`, or (below the threshold) calls `scheduleFlush`. -/
def logCore (cfg : Config) (st : LogState) (message : String) (level : LogLevel)
    (data : Option JSObj) (traceId : Option String) (now : String) :
    LogState × List Effect :=
  if cfg.isLocalDev then
    let grey := "\x1b[90m"
    let white := "\x1b[0m"
    let line := localDevColor level ++ level.toStr ++ grey ++ " - " ++ cfg.requestId ++ " - " ++ white ++ message
    let dataLines :=
      match data with
      | some d => [Effect.consoleLine (grey ++ " " ++ jsonOfObjPretty d)]
      | none => []
    (st, Effect.consoleLine line :: dataLines)
  else
    let lg := buildLog message level data cfg.service cfg.requestId traceId now
    let fallback :=
      if !strTruthy cfg.apiKey || !cfg.hasCtx then
        [Effect.consoleLine (jsonOfObj lg)]
      else []
    let st1 := { st with logs := st.logs ++ [lg] }
    if st1.logs.length ≥ cfg.flushAfterLogs then
      let reset :=
        if st1.flushTimeout then scheduleFlush st1 cfg.flushAfterMs true
        else (st1, [])
      (reset.1, fallback ++ reset.2 ++ [Effect.registerFlush true])
    else
      let sched := scheduleFlush st1 cfg.flushAfterMs false
      (sched.1, fallback ++ sched.2)

/-- The public `log` method: delegates to `_log` with level `"info"`. -/
def log (cfg : Config) (st : LogState) (msg : String) (data : Option JSObj)
    (traceId : Option String) (now : String) : LogState × List Effect :=
  logCore cfg st msg .info data traceId now

/-- The public `info` method: delegates to `_log` with level `"info"`. -/
def info (cfg : Config) (st : LogState) (msg : String) (data : Option JSObj)
    (traceId : Option String) (now : String) : LogState × List Effect :=
  logCore cfg st msg .info data traceId now

/-- The public `warn` method: delegates to `_log` with level `"warning"`. -/
def warn (cfg : Config) (st : LogState) (msg : String) (data : Option JSObj)
    (traceId : Option String) (now : String) : LogState × List Effect :=
  logCore cfg st msg .warning data traceId now

/-- The public `debug` method: delegates to `_log` with level `"debug"`. -/
def debug (cfg : Config) (st : LogState) (msg : String) (data : Option JSObj)
    (traceId : Option String) (now : String) : LogState × List Effect :=
  logCore cfg st msg .debug data traceId now

/-- Values a scalar JSON-serializable argument to `error` can take (the
fragment of `unknown` on which `JSON.stringify` returns a string). -/
inductive JsonScalar where
  | jsNull
  | bool (b : Bool)
  | num (n : Int)
  | str (s : String)
  deriving Repr, DecidableEq

/-- The `JSON.stringify` rendering of a scalar. -/
def JsonScalar.render : JsonScalar → String
  | .jsNull => "null"
  | .bool b => if b then "true" else "false"
  | .num n => toString n
  | .str s => "\"" ++ s ++ "\""

/-- The possible first arguments of the `error` method: an `Error` instance
(message plus optional stack), a plain string, or another value. -/
inductive ErrArg where
  | errObj (message : String) (stack : Option String)
  | strMsg (s : String)
  | other (v : JsonScalar)
  deriving Repr, DecidableEq

/-- The public `error` method: coerces its argument to a message string
(`msg.message + (msg.stack ? ": " + msg.stack : "")` for an `Error`, the
string itself, or `JSON.stringify(msg)`) and delegates to `_log` with level
`"error"`.  The coercion is total: the method never throws. -/
def error (cfg : Config) (st : LogState) (msg : ErrArg) (data : Option JSObj)
    (traceId : Option String) (now : String) : LogState × List Effect :=
  let m : String :=
    match msg with
    | .errObj message stack =>
        message ++
          (match stack with
           | some s => if strTruthy s then ": " ++ s else ""
           | none => "")
    | .strMsg s => s
    | .other v => v.render
  logCore cfg st m .error data traceId now

/-- Outcome of the `fetch` call inside `flush`: a response with `res.ok`
true, a non-ok response (status, status text, body text), or an exception
thrown during the call. -/
inductive FetchResult where
  | ok
  | failResp (status : Nat) (statusText : String) (body : String)
  | thrown (err : String)
  deriving Repr, DecidableEq

/-- A network delivery attempt as assembled by `flush`. -/
structure IngestRequest where
  url : String
  authHeader : String
  body : String
  deriving Repr, DecidableEq

/-- Result of one `flush` call: the state after the call completes, the
delivery attempts it performed, and the console lines it wrote. -/
structure FlushResult where
  state : LogState
  requests : List IngestRequest
  console : List String
  deriving Repr, DecidableEq

/-- The console line of the non-ok response branch of `flush`. -/
def ingestFailLine (status : Nat) (statusText body : String) : String :=
  "Axiom failed to ingest logs: " ++ toString status ++ " " ++ statusText ++ " " ++ body

/-- The console line of the exception branch of `flush`. -/
def ingestErrLine (err : String) : String :=
  "Axiom failed to ingest logs: " ++ err

/-- The `flush({skipIfInProgress})` method.  The entry guard returns at once
when a skip was requested and a flush promise is in flight.  Otherwise, after
the serialization barrier (`await this.flushPromise` — in this sequential
model `st` is the state once any previous flush has completed), `doFlush`
runs: nothing happens on an empty buffer; otherwise the buffer length is
snapshotted, the buffer is serialized and POSTed, and while the `fetch` is
pending the oracle records `during` are pushed onto the buffer by concurrent
record calls.  On `res.ok` the snapshotted count is spliced off the front of
the buffer (and the response body is drained); on a non-ok response or a
thrown exception the buffer is left alone and a failure line goes to the
console.  In every case the flush promise is cleared on exit and no error
escapes to the caller (the function is total and always returns a
`FlushResult`). -/
def flush (cfg : Config) (st : LogState) (skipIfInProgress : Bool)
    (during : List JSObj) (res : FetchResult) : FlushResult :=
  if skipIfInProgress && st.flushPromise then
    { state := st, requests := [], console := [] }
  else if st.logs.length = 0 then
    { state := { st with flushPromise := false }, requests := [], console := [] }
  else
    let logsCount := st.logs.length
    let req : IngestRequest :=
      { url := cfg.apiURL ++ "/datasets/" ++ cfg.dataset ++ "/ingest"
        authHeader := "Bearer " ++ cfg.apiKey
        body := jsonOfLogs st.logs }
    let bufferAtResolve := st.logs ++ during
    match res with
    | .ok =>
        { state := { st with logs := bufferAtResolve.drop logsCount, flushPromise := false }
          requests := [req]
          console := [] }
    | .failResp status statusText body =>
        { state := { st with logs := bufferAtResolve, flushPromise := false }
          requests := [req]
          console := [ingestFailLine status statusText body] }
    | .thrown err =>
        { state := { st with logs := bufferAtResolve, flushPromise := false }
          requests := [req]
          console := [ingestErrLine err] }

/-- Spec-side description (§4.1) of the message the `error` entry point
produces: `"<description>: <trace>"` when trace detail is available (a
non-empty stack), otherwise just the description; a plain string unchanged;
any other value as its JSON textual form. -/
def specErrorMessage : ErrArg → String
  | .errObj d (some t) => if t = "" then d else d ++ (": " ++ t)
  | .errObj d none => d
  | .strMsg s => s
  | .other v => v.render

/-- A concrete log record used by witnesses. -/
def sampleLogA : JSObj := [("message", JSVal.str "a"), ("level", JSVal.str "info")]

/-- A second concrete log record used by witnesses. -/
def sampleLogB : JSObj := [("message", JSVal.str "b"), ("level", JSVal.str "info")]

/-- A concrete configuration used by witnesses. -/
def sampleCfg : Config :=
  { hasCtx := true
    apiKey := "key"
    dataset := "edge-logger"
    service := none
    apiURL := "https://api.axiom.co/v1"
    flushAfterMs := 10000
    flushAfterLogs := 100
    requestId := "req-1"
    isLocalDev := false }

/-- A concrete state with one buffered record, used by witnesses. -/
def sampleSt : LogState :=
  { logs := [sampleLogA], flushTimeout := false, flushPromise := false }

/-- Concrete constructor options used by witnesses. -/
def sampleArgs : LoggerArgs :=
  { hasCtx := true
    apiKey := "key"
    dataset := none
    service := none
    apiURL := none
    flushAfterMs := none
    flushAfterLogs := none
    requestId := ReqIdArg.undef
    isLocalDev := none }

/-- A configuration whose count threshold is 1, used by witnesses. -/
def thresholdCfg : Config := { sampleCfg with flushAfterLogs := 1 }

/-- A state with a pending timer and no in-flight flush, used by witnesses. -/
def timerSt : LogState := { logs := [], flushTimeout := true, flushPromise := false }

/-- A configuration in local-dev mode, used by witnesses. -/
def localCfg : Config := { sampleCfg with isLocalDev := true }

/-- A configuration with a falsy API key, used by witnesses. -/
def noKeyCfg : Config := { sampleCfg with apiKey := "" }

/-- Reading a property written by `objSet` yields the written value. -/
theorem objGet_objSet_self (o : JSObj) (k : String) (v : JSVal) :
    objGet (objSet o k v) k = v := by
  induction o with
  | nil => simp [objSet, objGet]
  | cons p rest ih =>
      obtain ⟨q, w⟩ := p
      by_cases h : q = k
      · simp [objSet, objGet, h]
      · simp [objSet, objGet, h, ih]

/-- `objSet` on a different key does not change a property read. -/
theorem objGet_objSet_ne (o : JSObj) (q k : String) (v : JSVal) (h : q ≠ k) :
    objGet (objSet o q v) k = objGet o k := by
  induction o with
  | nil => simp [objSet, objGet, h]
  | cons p rest ih =>
      obtain ⟨r, w⟩ := p
      by_cases hr : r = q
      · subst hr
        simp [objSet, objGet, h]
      · by_cases hk : r = k
        · subst hk
          simp [objSet, objGet, hr]
        · simp [objSet, objGet, hr, hk, ih]

/-- A key not among the object's keys is not found by `objHas`. -/
theorem objHas_eq_false_of_not_mem (o : JSObj) (k : String)
    (h : k ∉ o.map Prod.fst) : objHas o k = false := by
  induction o with
  | nil => rfl
  | cons p rest ih =>
      simp only [List.map_cons, List.mem_cons, not_or] at h
      have h1 : ¬ (p.1 = k) := fun hq => h.1 hq.symm
      simp [objHas, h1, ih h.2]

/-- A key `objHas` does not find reads as `undefined`. -/
theorem objGet_eq_undef_of_not_has (o : JSObj) (k : String)
    (h : objHas o k = false) : objGet o k = JSVal.undef := by
  induction o with
  | nil => rfl
  | cons p rest ih =>
      obtain ⟨q, w⟩ := p
      simp only [objHas, Bool.or_eq_false_iff, decide_eq_false_iff_not] at h
      simp [objGet, h.1, ih h.2]

/-- Reading a property after a spread: a key present in the spread object
(whose keys are distinct, as for any JS object) takes its value from there,
any other key from the base object. -/
theorem objGet_objSpread (base ext : JSObj) (k : String)
    (hnd : (ext.map Prod.fst).Nodup) :
    objGet (objSpread base ext) k =
      if objHas ext k then objGet ext k else objGet base k := by
  induction ext generalizing base with
  | nil => simp [objSpread, objHas]
  | cons p rest ih =>
      obtain ⟨q, v⟩ := p
      simp only [List.map_cons, List.nodup_cons] at hnd
      have hspread : objSpread base ((q, v) :: rest) = objSpread (objSet base q v) rest := rfl
      rw [hspread, ih (objSet base q v) hnd.2]
      by_cases h : q = k
      · subst h
        have hno : objHas rest q = false :=
          objHas_eq_false_of_not_mem rest q hnd.1
        simp [objHas, objGet, hno, objGet_objSet_self]
      · simp [objHas, objGet, h, objGet_objSet_ne base q k v h]

/-- `scheduleFlush` never touches the record buffer. -/
theorem scheduleFlush_logs (st : LogState) (t : Nat) (r : Bool) :
    (scheduleFlush st t r).1.logs = st.logs := by
  unfold scheduleFlush
  by_cases h : (r && st.flushTimeout) = true <;> simp [h] <;> split <;> rfl

/-- The last element of a list with an element appended. -/
theorem getLast?_append_singleton (l : List Effect) (e : Effect) :
    (l ++ [e]).getLast? = some e := by
  rw [List.getLast?_append_cons]
  rfl

/-- In non-local-dev mode `_log` appends exactly the built record to the
buffer, whatever the configuration and scheduling branch taken. -/
theorem logCore_logs (cfg : Config) (st : LogState) (msg : String)
    (level : LogLevel) (data : Option JSObj) (traceId : Option String)
    (now : String) (hld : cfg.isLocalDev = false) :
    (logCore cfg st msg level data traceId now).1.logs =
      st.logs ++ [buildLog msg level data cfg.service cfg.requestId traceId now] := by
  unfold logCore
  simp only [hld, Bool.false_eq_true, if_false]
  by_cases hth : cfg.flushAfterLogs ≤ st.logs.length + 1
  · by_cases hT : st.flushTimeout = true <;>
      simp [hth, hT, scheduleFlush_logs]
  · simp [hth, scheduleFlush_logs]

/-- C1: a flush execution that passes the entry guard, finds a non-empty
buffer (snapshotting its length `n = st.logs.length`) and receives a
successful delivery response removes exactly the snapshotted prefix from the
buffer: afterwards the buffer holds precisely the records appended strictly
after the snapshot and before delivery completion, in order, and the removed
records are exactly the snapshotted ones. -/
theorem flush_ok_removes_exactly_snapshot (cfg : Config) (st : LogState)
    (skip : Bool) (during : List JSObj)
    (hguard : skip = false ∨ st.flushPromise = false)
    (hne : st.logs ≠ []) :
    (flush cfg st skip during FetchResult.ok).state.logs = during ∧
    (st.logs ++ during).take st.logs.length = st.logs := by
  have hg : (skip && st.flushPromise) = false := by
    rcases hguard with h | h <;> simp [h]
  have hlen : ¬ st.logs.length = 0 := by
    simpa [List.length_eq_zero] using hne
  simp [flush, hg, hlen, List.drop_left, List.take_left]

/-- C1 witness: a concrete one-record buffer, one record appended mid-flight,
successful response. -/
theorem flush_ok_removes_exactly_snapshot_witness :
    sampleSt.logs ≠ [] ∧
    ((flush sampleCfg sampleSt true [sampleLogB] FetchResult.ok).state.logs = [sampleLogB] ∧
      (sampleSt.logs ++ [sampleLogB]).take sampleSt.logs.length = sampleSt.logs) :=
  ⟨by decide,
   flush_ok_removes_exactly_snapshot sampleCfg sampleSt true [sampleLogB]
     (Or.inr rfl) (by decide)⟩

/-- C2: a flush execution whose delivery fails — a non-ok response or an
exception thrown during the call — removes nothing from the buffer (the
buffer afterwards is exactly the snapshotted records followed by any records
appended mid-flight; with no mid-flight appends it is unchanged) and writes
the corresponding failure line to the console sink.  No error propagates to
the caller: the embedded `flush` is a total function that returns an ordinary
`FlushResult` on these branches (the source's `try/catch` swallows the
fault). -/
theorem flush_failure_preserves_buffer (cfg : Config) (st : LogState)
    (skip : Bool) (during : List JSObj)
    (hguard : skip = false ∨ st.flushPromise = false)
    (hne : st.logs ≠ []) :
    (∀ status statusText body,
      (flush cfg st skip during (FetchResult.failResp status statusText body)).state.logs =
          st.logs ++ during ∧
      (flush cfg st skip during (FetchResult.failResp status statusText body)).console =
          [ingestFailLine status statusText body]) ∧
    (∀ err,
      (flush cfg st skip during (FetchResult.thrown err)).state.logs = st.logs ++ during ∧
      (flush cfg st skip during (FetchResult.thrown err)).console = [ingestErrLine err]) := by
  have hg : (skip && st.flushPromise) = false := by
    rcases hguard with h | h <;> simp [h]
  have hlen : ¬ st.logs.length = 0 := by
    simpa [List.length_eq_zero] using hne
  refine ⟨fun status statusText body => ?_, fun err => ?_⟩ <;>
    exact ⟨by simp [flush, hg, hlen], by simp [flush, hg, hlen]⟩

/-- C2 witness: a concrete HTTP 500 response leaves the one-record buffer as
it was and writes the failure line containing status 500. -/
theorem flush_failure_preserves_buffer_witness :
    sampleSt.logs ≠ [] ∧
    ((flush sampleCfg sampleSt false [] (FetchResult.failResp 500 "Internal Server Error" "oops")).state.logs =
        sampleSt.logs ++ [] ∧
      (flush sampleCfg sampleSt false [] (FetchResult.failResp 500 "Internal Server Error" "oops")).console =
        [ingestFailLine 500 "Internal Server Error" "oops"]) :=
  ⟨by decide,
   (flush_failure_preserves_buffer sampleCfg sampleSt false [] (Or.inl rfl)
     (by decide)).1 500 "Internal Server Error" "oops"⟩

/-- C3: a `flush({skipIfInProgress: true})` call made while a flush promise
is in flight returns immediately — the state (buffer and both coordination
handles) is untouched, no delivery attempt is made and nothing is written —
and hence two flush calls issued concurrently with the skip flag, the first
still in-flight, perform exactly one network delivery attempt in total. -/
theorem flush_skip_guard_single_flight (cfg : Config) (st0 : LogState)
    (d1 d2 : List JSObj) (r1 r2 : FetchResult)
    (h0 : st0.flushPromise = false) (hne : st0.logs ≠ []) :
    flush cfg { st0 with flushPromise := true } true d2 r2 =
      { state := { st0 with flushPromise := true }, requests := [], console := [] } ∧
    (flush cfg st0 true d1 r1).requests.length +
      (flush cfg { st0 with flushPromise := true } true d2 r2).requests.length = 1 := by
  have hskip : flush cfg { st0 with flushPromise := true } true d2 r2 =
      { state := { st0 with flushPromise := true }, requests := [], console := [] } := by
    simp [flush]
  have hlen : ¬ st0.logs.length = 0 := by
    simpa [List.length_eq_zero] using hne
  refine ⟨hskip, ?_⟩
  rw [hskip]
  cases r1 <;> simp [flush, h0, hlen]

/-- C3 witness: concrete first flush on a one-record buffer with the second
call arriving while it is in flight. -/
theorem flush_skip_guard_single_flight_witness :
    sampleSt.flushPromise = false ∧ sampleSt.logs ≠ [] ∧
    (flush sampleCfg { sampleSt with flushPromise := true } true [] FetchResult.ok =
        { state := { sampleSt with flushPromise := true }, requests := [], console := [] } ∧
      (flush sampleCfg sampleSt true [] FetchResult.ok).requests.length +
        (flush sampleCfg { sampleSt with flushPromise := true } true [] FetchResult.ok).requests.length = 1) :=
  ⟨rfl, by decide,
   flush_skip_guard_single_flight sampleCfg sampleSt [] [] FetchResult.ok FetchResult.ok
     rfl (by decide)⟩

/-- C4: an append in non-local-dev mode that brings the buffer length to at
least the count threshold emits, synchronously within that same `_log` call,
a registration of `flush({skipIfInProgress: true})` with the deferred-work
registrar as its final effect; and when a timer was pending at that moment, a
cancellation of that timer occurs strictly before the registration. -/
theorem threshold_append_registers_flush (cfg : Config) (st : LogState)
    (msg : String) (level : LogLevel) (data : Option JSObj)
    (traceId : Option String) (now : String)
    (hld : cfg.isLocalDev = false)
    (hth : cfg.flushAfterLogs ≤ st.logs.length + 1) :
    (logCore cfg st msg level data traceId now).2.getLast? =
      some (Effect.registerFlush true) ∧
    (st.flushTimeout = true →
      ∃ pre post, (logCore cfg st msg level data traceId now).2 =
        pre ++ Effect.cancelTimer :: (post ++ [Effect.registerFlush true])) := by
  have hexp : ∃ fb ts,
      (logCore cfg st msg level data traceId now).2 =
        fb ++ (ts ++ [Effect.registerFlush true]) ∧
      (st.flushTimeout = true → ∃ rest, ts = Effect.cancelTimer :: rest) := by
    unfold logCore
    simp only [hld, Bool.false_eq_true, if_false]
    by_cases hT : st.flushTimeout = true
    · by_cases hP : st.flushPromise = true
      · exact ⟨if !strTruthy cfg.apiKey || !cfg.hasCtx then
            [Effect.consoleLine (jsonOfObj (buildLog msg level data cfg.service cfg.requestId traceId now))]
          else [], [Effect.cancelTimer],
          by simp [hth, hT, hP, scheduleFlush], fun _ => ⟨[], rfl⟩⟩
      · exact ⟨if !strTruthy cfg.apiKey || !cfg.hasCtx then
            [Effect.consoleLine (jsonOfObj (buildLog msg level data cfg.service cfg.requestId traceId now))]
          else [], [Effect.cancelTimer, Effect.setTimer cfg.flushAfterMs],
          by simp [hth, hT, hP, scheduleFlush], fun _ => ⟨[Effect.setTimer cfg.flushAfterMs], rfl⟩⟩
    · exact ⟨if !strTruthy cfg.apiKey || !cfg.hasCtx then
          [Effect.consoleLine (jsonOfObj (buildLog msg level data cfg.service cfg.requestId traceId now))]
        else [], [],
        by simp [hth, hT], fun hc => absurd hc hT⟩
  obtain ⟨fb, ts, hev, hcancel⟩ := hexp
  constructor
  · rw [hev, ← List.append_assoc]
    exact getLast?_append_singleton _ _
  · intro hT
    obtain ⟨rest, hts⟩ := hcancel hT
    exact ⟨fb, rest, by rw [hev, hts]; simp⟩

/-- C4 witness: threshold 1, a pending timer, empty buffer, one append. -/
theorem threshold_append_registers_flush_witness :
    thresholdCfg.isLocalDev = false ∧
    thresholdCfg.flushAfterLogs ≤ timerSt.logs.length + 1 ∧
    ((logCore thresholdCfg timerSt "a" LogLevel.info none none "t0").2.getLast? =
        some (Effect.registerFlush true) ∧
      (timerSt.flushTimeout = true →
        ∃ pre post, (logCore thresholdCfg timerSt "a" LogLevel.info none none "t0").2 =
          pre ++ Effect.cancelTimer :: (post ++ [Effect.registerFlush true]))) :=
  ⟨rfl, by decide,
   threshold_append_registers_flush thresholdCfg timerSt "a" LogLevel.info none none "t0"
     rfl (by decide)⟩

/-- C5: in the record built by `_log`, the final `level` property equals the
caller-supplied `fields.level` whenever that property is supplied (even a
falsy one — the caller fields are spread last), and equals the explicit level
argument otherwise. -/
theorem record_level_resolution (msg : String) (level : LogLevel) (d : JSObj)
    (service : Option String) (requestId : String) (traceId : Option String)
    (now : String) (hnd : (d.map Prod.fst).Nodup) :
    objGet (buildLog msg level (some d) service requestId traceId now) "level" =
      (if objHas d "level" then objGet d "level" else JSVal.str level.toStr) := by
  unfold buildLog
  rw [objGet_objSpread _ _ _ hnd]
  by_cases h : objHas d "level" = true
  · simp [h]
  · simp only [Bool.not_eq_true] at h
    have hu : objGet d "level" = JSVal.undef :=
      objGet_eq_undef_of_not_has d "level" h
    simp [h, objGet, hu, jsOr, JSVal.truthy]

/-- C5 witness: a caller-supplied `level: "warning"` wins over the explicit
`info` argument. -/
theorem record_level_resolution_witness :
    (([("level", JSVal.str "warning"), ("foo", JSVal.num 1)].map Prod.fst).Nodup) ∧
    objGet (buildLog "m" LogLevel.info
        (some [("level", JSVal.str "warning"), ("foo", JSVal.num 1)])
        none "r" none "t0") "level" =
      (if objHas [("level", JSVal.str "warning"), ("foo", JSVal.num 1)] "level"
        then objGet [("level", JSVal.str "warning"), ("foo", JSVal.num 1)] "level"
        else JSVal.str LogLevel.info.toStr) :=
  ⟨by decide,
   record_level_resolution "m" LogLevel.info
     [("level", JSVal.str "warning"), ("foo", JSVal.num 1)] none "r" none "t0" (by decide)⟩

/-- C6: in local-dev mode a record call leaves the entire mutable state (the
buffer and both coordination handles) untouched and produces only console
lines — first the colored record line, possibly followed by the
pretty-printed fields — so no buffering, no timer, no flush registration and
no network delivery happens. -/
theorem localdev_writes_console_only (cfg : Config) (st : LogState)
    (msg : String) (level : LogLevel) (data : Option JSObj)
    (traceId : Option String) (now : String)
    (hld : cfg.isLocalDev = true) :
    (logCore cfg st msg level data traceId now).1 = st ∧
    (logCore cfg st msg level data traceId now).2.head? =
      some (Effect.consoleLine (localDevColor level ++ level.toStr ++ "\x1b[90m" ++
        " - " ++ cfg.requestId ++ " - " ++ "\x1b[0m" ++ msg)) ∧
    ∀ e ∈ (logCore cfg st msg level data traceId now).2,
      ∃ s, e = Effect.consoleLine s := by
  refine ⟨?_, ?_, ?_⟩
  · simp [logCore, hld]
  · simp [logCore, hld]
  · intro e he
    cases data with
    | none =>
        simp [logCore, hld] at he
        exact ⟨_, he⟩
    | some d =>
        simp [logCore, hld] at he
        rcases he with h | h
        · exact ⟨_, h⟩
        · exact ⟨_, h⟩

/-- C6 witness: one local-dev record call with structured fields. -/
theorem localdev_writes_console_only_witness :
    localCfg.isLocalDev = true ∧
    ((logCore localCfg sampleSt "hello" LogLevel.info (some [("foo", JSVal.str "bar")]) none "t0").1 = sampleSt ∧
      (logCore localCfg sampleSt "hello" LogLevel.info (some [("foo", JSVal.str "bar")]) none "t0").2.head? =
        some (Effect.consoleLine (localDevColor LogLevel.info ++ LogLevel.info.toStr ++ "\x1b[90m" ++
          " - " ++ localCfg.requestId ++ " - " ++ "\x1b[0m" ++ "hello")) ∧
      ∀ e ∈ (logCore localCfg sampleSt "hello" LogLevel.info (some [("foo", JSVal.str "bar")]) none "t0").2,
        ∃ s, e = Effect.consoleLine s) :=
  ⟨rfl,
   localdev_writes_console_only localCfg sampleSt "hello" LogLevel.info
     (some [("foo", JSVal.str "bar")]) none "t0" rfl⟩

/-- C7: in non-local-dev mode, when the API key is falsy or no execution
context is configured, the record is additionally written to the console sink
at record time, and it is still appended to the buffer exactly as in the
normal path. -/
theorem fallback_additional_write (cfg : Config) (st : LogState)
    (msg : String) (level : LogLevel) (data : Option JSObj)
    (traceId : Option String) (now : String)
    (hld : cfg.isLocalDev = false)
    (hbad : cfg.apiKey = "" ∨ cfg.hasCtx = false) :
    Effect.consoleLine (jsonOfObj (buildLog msg level data cfg.service cfg.requestId traceId now)) ∈
      (logCore cfg st msg level data traceId now).2 ∧
    (logCore cfg st msg level data traceId now).1.logs =
      st.logs ++ [buildLog msg level data cfg.service cfg.requestId traceId now] := by
  refine ⟨?_, logCore_logs cfg st msg level data traceId now hld⟩
  unfold logCore
  simp only [hld, Bool.false_eq_true, if_false]
  have hcond : (!strTruthy cfg.apiKey || !cfg.hasCtx) = true := by
    rcases hbad with h | h <;> simp [strTruthy, h]
  by_cases hth : cfg.flushAfterLogs ≤ st.logs.length + 1 <;>
    simp [hth, hcond]

/-- C7 witness: empty API key, one record call on the sample state. -/
theorem fallback_additional_write_witness :
    noKeyCfg.isLocalDev = false ∧ noKeyCfg.apiKey = "" ∧
    (Effect.consoleLine (jsonOfObj (buildLog "m" LogLevel.info none noKeyCfg.service noKeyCfg.requestId none "t0")) ∈
        (logCore noKeyCfg sampleSt "m" LogLevel.info none none "t0").2 ∧
      (logCore noKeyCfg sampleSt "m" LogLevel.info none none "t0").1.logs =
        sampleSt.logs ++ [buildLog "m" LogLevel.info none noKeyCfg.service noKeyCfg.requestId none "t0"]) :=
  ⟨rfl, rfl,
   fallback_additional_write noKeyCfg sampleSt "m" LogLevel.info none none "t0"
     rfl (Or.inl rfl)⟩

/-- C8: the `error` entry point coerces its argument exactly as the spec
describes — an error-like value to `"<description>: <trace>"` when trace
detail is available and to `"<description>"` otherwise, a string to itself,
and any other value to its JSON textual form — and the record it appends
carries that coerced message.  The coercion and the whole call are total
functions in this embedding, mirroring that the source never throws. -/
theorem error_coerces_message (cfg : Config) (st : LogState) (arg : ErrArg)
    (data : Option JSObj) (traceId : Option String) (now : String)
    (hld : cfg.isLocalDev = false) :
    (error cfg st arg data traceId now).1.logs =
      st.logs ++ [buildLog (specErrorMessage arg) LogLevel.error data
        cfg.service cfg.requestId traceId now] ∧
    objGet (buildLog (specErrorMessage arg) LogLevel.error none
        cfg.service cfg.requestId traceId now) "message" =
      JSVal.str (specErrorMessage arg) := by
  have he : error cfg st arg data traceId now =
      logCore cfg st (specErrorMessage arg) LogLevel.error data traceId now := by
    cases arg with
    | errObj d stk =>
        cases stk with
        | none => simp [error, specErrorMessage, String.append_empty]
        | some t =>
            by_cases ht : t = ""
            · simp [error, specErrorMessage, strTruthy, ht, String.append_empty]
            · simp [error, specErrorMessage, strTruthy, ht]
    | strMsg s => rfl
    | other v => rfl
  refine ⟨?_, ?_⟩
  · rw [he]
    exact logCore_logs cfg st (specErrorMessage arg) LogLevel.error data traceId now hld
  · simp [buildLog, objSpread, objGet]

/-- C8 witness: `error(new Error("boom"))` with a stack produces the message
`"boom: <stack>"`. -/
theorem error_coerces_message_witness :
    sampleCfg.isLocalDev = false ∧
    specErrorMessage (ErrArg.errObj "boom" (some "stackline")) = "boom: stackline" ∧
    ((error sampleCfg sampleSt (ErrArg.errObj "boom" (some "stackline")) none none "t0").1.logs =
        sampleSt.logs ++ [buildLog (specErrorMessage (ErrArg.errObj "boom" (some "stackline")))
          LogLevel.error none sampleCfg.service sampleCfg.requestId none "t0"] ∧
      objGet (buildLog (specErrorMessage (ErrArg.errObj "boom" (some "stackline")))
          LogLevel.error none sampleCfg.service sampleCfg.requestId none "t0") "message" =
        JSVal.str (specErrorMessage (ErrArg.errObj "boom" (some "stackline")))) :=
  ⟨rfl, by decide,
   error_coerces_message sampleCfg sampleSt (ErrArg.errObj "boom" (some "stackline"))
     none none "t0" rfl⟩

/-- C9: the constructor keeps a supplied `requestId` only when it is a
non-empty string; an empty string, `null` or an absent option is ignored and
the freshly generated UUID is used instead. -/
theorem requestId_falsy_generates_uuid (args : LoggerArgs) (fresh : String) :
    (mkEdgeLogger { args with requestId := ReqIdArg.str "" } fresh).requestId = fresh ∧
    (mkEdgeLogger { args with requestId := ReqIdArg.jsNull } fresh).requestId = fresh ∧
    (mkEdgeLogger { args with requestId := ReqIdArg.undef } fresh).requestId = fresh ∧
    ∀ s : String, s ≠ "" →
      (mkEdgeLogger { args with requestId := ReqIdArg.str s } fresh).requestId = s := by
  refine ⟨?_, rfl, rfl, ?_⟩
  · simp [mkEdgeLogger, ReqIdArg.truthy]
  · intro s hs
    simp [mkEdgeLogger, ReqIdArg.truthy, ReqIdArg.strVal, hs]

/-- C9 witness: empty-string `requestId` yields the generated UUID, a
non-empty one is kept. -/
theorem requestId_falsy_generates_uuid_witness :
    (mkEdgeLogger { sampleArgs with requestId := ReqIdArg.str "" } "uuid-1").requestId = "uuid-1" ∧
    (("abc" : String) ≠ "" ∧
      (mkEdgeLogger { sampleArgs with requestId := ReqIdArg.str "abc" } "uuid-1").requestId = "abc") :=
  ⟨(requestId_falsy_generates_uuid sampleArgs "uuid-1").1,
   by decide,
   (requestId_falsy_generates_uuid sampleArgs "uuid-1").2.2.2 "abc" (by decide)⟩

/-- C10: the `log` and `info` record methods are extensionally equal — on
every input they perform the identical operation, namely `_log` at level
`"info"` — and (absent a caller override) the record built at that level
carries `level: "info"`. -/
theorem log_info_extensionally_equal (cfg : Config) (st : LogState)
    (msg : String) (data : Option JSObj) (traceId : Option String)
    (now : String) :
    log cfg st msg data traceId now = info cfg st msg data traceId now ∧
    log cfg st msg data traceId now = logCore cfg st msg LogLevel.info data traceId now ∧
    objGet (buildLog msg LogLevel.info none cfg.service cfg.requestId traceId now) "level" =
      JSVal.str "info" := by
  refine ⟨rfl, rfl, ?_⟩
  simp [buildLog, objSpread, objGet, jsOr, JSVal.truthy, LogLevel.toStr]

end EdgeLogger
